import Mathlib

/-!
Verification of the dividend-monitor reconciliation logic
(`src/check_dividends.py`) against its natural-language specification.

The script's data model is embedded shallowly:

* a dividend record `{'date': ..., 'amount': ...}` becomes `Event`;
  dates (strings `YYYY-MM-DD`, compared by equality and, chronologically,
  lexicographically) are embedded as `Nat`, amounts (Python floats) as `ℚ`;
* the persisted JSON mapping ticker ↦ list of records becomes `StoredData`,
  an association list with `getTicker` / `setTicker` mirroring
  `stored_data.get(ticker, [])` and `stored_data[ticker] = ...`;
* `check_for_alerts` (lines 79-144) is translated function by function;
  the alert message string is elided (pure formatting), so the result is
  the pair (should_alert, new_dividend_to_add);
* the per-ticker loop body of `main` (lines 198-240) becomes `ticker_step`,
  and the whole loop plus the final conditional save becomes `run_main` /
  `main_saves`;
* `fetch_dividends` (lines 54-76) becomes a function of the raw outcome of
  the network call (exception or list of rows).
-/

set_option autoImplicit false

namespace DividendMonitor

/-- One dividend record `{'date': 'YYYY-MM-DD', 'amount': float}`
(built in `fetch_dividends`, lines 67-70). Dates are embedded as `Nat`
(string comparison on `YYYY-MM-DD` is lexicographic, hence order-isomorphic
to an embedding into `Nat` such as `20230101`), amounts as `ℚ`. -/
structure Event where
  date : Nat
  amount : ℚ
deriving DecidableEq, Repr

/-- ALERT_THRESHOLD = 0.20 (line 17). -/
def ALERT_THRESHOLD : ℚ := 20 / 100

/-- The persisted mapping ticker ↦ dividend list (`stored_data`). -/
abbrev StoredData := List (String × List Event)

/-- Embeds `stored_data.get(ticker, [])` (line 209). -/
def getTicker : StoredData → String → List Event
  | [], _ => []
  | p :: rest, t => if p.1 = t then p.2 else getTicker rest t

/-- Embeds `stored_data[ticker] = evs` (lines 216 and 234: in-place list
append is assignment of the extended list). -/
def setTicker : StoredData → String → List Event → StoredData
  | [], t, evs => [(t, evs)]
  | p :: rest, t, evs =>
      if p.1 = t then (t, evs) :: rest else p :: setTicker rest t evs

/-- Line 91: `[d for d in new_dividends if d['date'] not in stored_dates]`,
with `stored_dates = [d['date'] for d in stored_dividends]` (line 88). -/
def truly_new (stored_dividends new_dividends : List Event) : List Event :=
  new_dividends.filter
    (fun d => ! (stored_dividends.map Event.date).contains d.date)

/-- Lines 114-144 of `check_for_alerts`: once `latest_new` and `previous`
are fixed, guard against a zero baseline (lines 118-119), otherwise compute
`change_pct` (line 121) and alert iff `abs(change_pct) >= ALERT_THRESHOLD`
(line 126). Every path returns `latest_new` as the record to add. -/
def decide_alert (latest_new previous : Event) : Bool × Option Event :=
  if previous.amount = 0 then
    (false, some latest_new)
  else
    (decide (ALERT_THRESHOLD ≤ |(latest_new.amount - previous.amount) / previous.amount|),
      some latest_new)

/-- `check_for_alerts(ticker, stored_dividends, new_dividends)`
(lines 79-144), minus the message string: returns
(should_alert, new_dividend_to_add).

* empty `new_dividends` ⇒ `(False, None, None)` (lines 84-85);
* `truly_new_dividends` empty ⇒ `(False, None, None)` (lines 94-96);
* `latest_new = truly_new_dividends[-1]` (line 99);
* `previous` is `stored_dividends[-1]` when the stored list is non-empty
  (lines 103-105), else `new_dividends[-2]` when `len(new_dividends) >= 2`
  (lines 106-108), else return `(False, None, latest_new)` (lines 109-112). -/
def check_for_alerts (stored_dividends new_dividends : List Event) :
    Bool × Option Event :=
  match new_dividends with
  | [] => (false, none)
  | _ :: _ =>
    match (truly_new stored_dividends new_dividends).getLast? with
    | none => (false, none)
    | some latest_new =>
      match stored_dividends.getLast? with
      | some previous => decide_alert latest_new previous
      | none =>
        match new_dividends.reverse with
        | _ :: previous :: _ => decide_alert latest_new previous
        | _ => (false, some latest_new)

/-- The body of the per-ticker loop in `main` (lines 198-240):
skip on fetch failure (lines 204-206); if the stored list is empty, store
the whole fetched list (lines 212-220, `data_updated = True`, no alert
check); otherwise run `check_for_alerts` and append the returned
`new_dividend`, if any, to the stored list (lines 223-238). Result:
(updated store, this iteration's contribution to `data_updated`,
whether the alert condition was met). -/
def ticker_step (fetch : String → Option (List Event)) (s : StoredData)
    (ticker : String) : StoredData × Bool × Bool :=
  match fetch ticker with
  | none => (s, false, false)
  | some new_dividends =>
    match getTicker s ticker with
    | [] => (setTicker s ticker new_dividends, true, false)
    | _ :: _ =>
      match check_for_alerts (getTicker s ticker) new_dividends with
      | (should_alert, some new_dividend) =>
          (setTicker s ticker (getTicker s ticker ++ [new_dividend]),
            true, should_alert)
      | (_, none) => (s, false, false)

/-- Raw outcome of the network call inside `fetch_dividends` (lines 57-58):
an exception, or the list of dividend rows reported by the source. -/
abbrev FetchOutcome := Except String (List Event)

/-- `fetch_dividends(ticker)` (lines 54-76) as a function of the raw
outcome: `None` when the call raises (lines 74-76) and also when the source
reports an empty dividend list (lines 60-62); otherwise the rows, converted
one by one into records (lines 64-72, pure reformatting). -/
def fetch_dividends (raw : FetchOutcome) : Option (List Event) :=
  match raw with
  | .error _ => none
  | .ok rows => if rows.isEmpty then none else some rows

/-- The whole per-ticker loop of `main` (lines 198-240), threading
`stored_data` and the `data_updated` flag (initialised to `False` on
line 195 and only ever or-ed with each iteration's contribution). -/
def run_main (fetch : String → Option (List Event)) :
    List String → StoredData → StoredData × Bool
  | [], s => (s, false)
  | t :: ts, s =>
      ((run_main fetch ts (ticker_step fetch s t).1).1,
        (ticker_step fetch s t).2.1 ||
          (run_main fetch ts (ticker_step fetch s t).1).2)

/-- Lines 242-246 of `main`: the run's list of file writes —
`save_stored_data` is called exactly once if `data_updated` ended up
`True`, and never otherwise. -/
def main_saves (fetch : String → Option (List Event)) (tickers : List String)
    (s : StoredData) : List StoredData :=
  if (run_main fetch tickers s).2 then [(run_main fetch tickers s).1] else []

/-- File contents observable while `save_stored_data` (lines 46-51) runs:
`open(DATA_FILE, 'w')` first truncates the data file in place to the empty
string, then `json.dump` writes the serialized mapping into it. A process
crash can be observed at each of these points, so the sequence of
observable contents is: the prior contents, the empty string left by the
truncating `open`, and finally the updated contents. -/
def save_observable_contents (prior updated : String) : List String :=
  [prior, "", updated]

/-- The IEEE-754 binary64 double nearest to the literal `1.20`, as an
exact rational: `1.2 * 2^52 = 5404319552844595.2`, so the stored
significand rounds to `5404319552844595` and the value is
`5404319552844595 / 2^52` — strictly BELOW 6/5. The program's amounts
(line 69, `float(...)`) and `change_pct` (line 121) are binary64 values;
for baseline 1.00 and new amount 1.20 the subtraction `1.2 - 1.0` is
exact in binary64 (both operands lie in `[1, 2]`, Sterbenz) and the
division by `1.0` is exact, so the program's computed `change_pct` equals
`(double_1_20 - 1) / 1` exactly as a rational. -/
def double_1_20 : ℚ := 5404319552844595 / 4503599627370496

/-- The IEEE-754 binary64 double nearest to the literal `0.20`
(`ALERT_THRESHOLD`, line 17), as an exact rational:
`0.2 * 2^54 = 3602879701896396.8`, so the stored significand rounds to
`3602879701896397` and the value is `3602879701896397 / 2^54` — strictly
ABOVE 1/5. -/
def double_0_20 : ℚ := 3602879701896397 / 18014398509481984

/-! ## Basic lemmas about the store and the reconciliation primitives -/

theorem getTicker_setTicker_self (s : StoredData) (t : String)
    (evs : List Event) : getTicker (setTicker s t evs) t = evs := by
  induction s with
  | nil => simp [getTicker, setTicker]
  | cons p rest ih =>
    by_cases h : p.1 = t
    · simp [setTicker, h, getTicker]
    · simp [setTicker, h, getTicker, ih]

theorem getTicker_setTicker_ne (s : StoredData) (t t0 : String)
    (evs : List Event) (h : t ≠ t0) :
    getTicker (setTicker s t evs) t0 = getTicker s t0 := by
  induction s with
  | nil => simp [getTicker, setTicker, h]
  | cons p rest ih =>
    by_cases hp : p.1 = t
    · simp [setTicker, hp, getTicker, h]
    · simp [setTicker, hp, getTicker, ih]

theorem mem_truly_new (stored fetched : List Event) (d : Event) :
    d ∈ truly_new stored fetched ↔
      d ∈ fetched ∧ d.date ∉ stored.map Event.date := by
  simp [truly_new]

theorem truly_new_eq_nil (stored fetched : List Event)
    (h : ∀ d ∈ fetched, d.date ∈ stored.map Event.date) :
    truly_new stored fetched = [] := by
  rw [truly_new, List.filter_eq_nil_iff]
  intro d hd
  simp [h d hd]

theorem decide_alert_snd (latest_new previous : Event) :
    (decide_alert latest_new previous).2 = some latest_new := by
  unfold decide_alert
  split <;> rfl

theorem check_for_alerts_of_getLast?_eq_none (stored fetched : List Event)
    (hd : (truly_new stored fetched).getLast? = none) :
    check_for_alerts stored fetched = (false, none) := by
  match fetched with
  | [] => rfl
  | f :: fs =>
    rw [check_for_alerts, hd]

theorem check_for_alerts_of_getLast?_eq_some (stored fetched : List Event)
    (prev d : Event) (hprev : stored.getLast? = some prev)
    (hd : (truly_new stored fetched).getLast? = some d) :
    check_for_alerts stored fetched = decide_alert d prev := by
  match fetched with
  | [] => simp [truly_new] at hd
  | f :: fs =>
    rw [check_for_alerts, hd, hprev]

/-! ## Case analysis of one iteration of the main loop -/

theorem ticker_step_of_fetch_none (f : String → Option (List Event))
    (s : StoredData) (t : String) (hf : f t = none) :
    ticker_step f s t = (s, false, false) := by
  simp [ticker_step, hf]

theorem ticker_step_of_empty (f : String → Option (List Event))
    (s : StoredData) (t : String) (nd : List Event)
    (hf : f t = some nd) (hs : getTicker s t = []) :
    ticker_step f s t = (setTicker s t nd, true, false) := by
  simp [ticker_step, hf, hs]

theorem ticker_step_of_new_dividend (f : String → Option (List Event))
    (s : StoredData) (t : String) (nd : List Event) (sa : Bool) (d : Event)
    (hf : f t = some nd) (hs : getTicker s t ≠ [])
    (hc : check_for_alerts (getTicker s t) nd = (sa, some d)) :
    ticker_step f s t = (setTicker s t (getTicker s t ++ [d]), true, sa) := by
  obtain ⟨a, as, hcons⟩ := List.exists_cons_of_ne_nil hs
  rw [hcons] at hc
  simp only [ticker_step, hf, hcons, hc]

theorem ticker_step_of_no_new_dividend (f : String → Option (List Event))
    (s : StoredData) (t : String) (nd : List Event) (sa : Bool)
    (hf : f t = some nd) (hs : getTicker s t ≠ [])
    (hc : check_for_alerts (getTicker s t) nd = (sa, none)) :
    ticker_step f s t = (s, false, false) := by
  obtain ⟨a, as, hcons⟩ := List.exists_cons_of_ne_nil hs
  rw [hcons] at hc
  simp only [ticker_step, hf, hcons, hc]

theorem getLast?_of_ne_nil {α : Type} (l : List α) (h : l ≠ []) :
    ∃ a, l.getLast? = some a := by
  cases hp : l.getLast? with
  | none => exact absurd (List.getLast?_eq_none_iff.mp hp) h
  | some a => exact ⟨a, rfl⟩

/-- When the stored list is non-empty, one loop iteration appends exactly
the last truly-new fetched event (if any) to it. -/
theorem ticker_step_get_of_ne_nil (s : StoredData) (tk : String)
    (fetched : List Event) (hs : getTicker s tk ≠ []) :
    getTicker (ticker_step (fun _ => some fetched) s tk).1 tk =
      getTicker s tk ++ ((truly_new (getTicker s tk) fetched).getLast?).toList := by
  cases hd : (truly_new (getTicker s tk) fetched).getLast? with
  | none =>
    rw [ticker_step_of_no_new_dividend (fun _ => some fetched) s tk fetched
      false rfl hs (check_for_alerts_of_getLast?_eq_none _ _ hd)]
    simp
  | some d =>
    obtain ⟨prev, hprev⟩ := getLast?_of_ne_nil (getTicker s tk) hs
    have hc := check_for_alerts_of_getLast?_eq_some _ _ prev d hprev hd
    rcases hcp : check_for_alerts (getTicker s tk) fetched with ⟨sa, o⟩
    have hsnd : o = some d := by
      have h2 := decide_alert_snd d prev
      rw [← hc, hcp] at h2
      exact h2
    subst hsnd
    rw [ticker_step_of_new_dividend _ _ _ fetched sa d rfl hs hcp,
      getTicker_setTicker_self]
    simp

/-! ## Growth and idleness of the loop state -/

theorem ticker_step_fst_of_not_updated (f : String → Option (List Event))
    (s : StoredData) (t : String) (h : (ticker_step f s t).2.1 = false) :
    (ticker_step f s t).1 = s := by
  cases hf : f t with
  | none => rw [ticker_step_of_fetch_none f s t hf]
  | some nd =>
    cases hg : getTicker s t with
    | nil =>
      rw [ticker_step_of_empty f s t nd hf hg] at h
      simp at h
    | cons a as =>
      have hne : getTicker s t ≠ [] := by rw [hg]; simp
      rcases hc : check_for_alerts (getTicker s t) nd with ⟨sa, o⟩
      cases o with
      | some d =>
        rw [ticker_step_of_new_dividend f s t nd sa d hf hne hc] at h
        simp at h
      | none => rw [ticker_step_of_no_new_dividend f s t nd sa hf hne hc]

theorem ticker_step_get_mono (f : String → Option (List Event))
    (s : StoredData) (t t0 : String) :
    (getTicker s t0).length ≤ (getTicker (ticker_step f s t).1 t0).length := by
  cases hf : f t with
  | none => rw [ticker_step_of_fetch_none f s t hf]
  | some nd =>
    cases hg : getTicker s t with
    | nil =>
      rw [ticker_step_of_empty f s t nd hf hg]
      by_cases ht : t = t0
      · subst ht
        rw [getTicker_setTicker_self, hg]
        simp
      · rw [getTicker_setTicker_ne s t t0 nd ht]
    | cons a as =>
      have hne : getTicker s t ≠ [] := by rw [hg]; simp
      rcases hc : check_for_alerts (getTicker s t) nd with ⟨sa, o⟩
      cases o with
      | some d =>
        rw [ticker_step_of_new_dividend f s t nd sa d hf hne hc]
        by_cases ht : t = t0
        · subst ht
          rw [getTicker_setTicker_self]
          simp
        · rw [getTicker_setTicker_ne _ _ _ _ ht]
      | none => rw [ticker_step_of_no_new_dividend f s t nd sa hf hne hc]

theorem ticker_step_growth_of_updated (f : String → Option (List Event))
    (s : StoredData) (t : String) (hf0 : ∀ l, f t = some l → l ≠ [])
    (h : (ticker_step f s t).2.1 = true) :
    (getTicker s t).length < (getTicker (ticker_step f s t).1 t).length := by
  cases hf : f t with
  | none =>
    rw [ticker_step_of_fetch_none f s t hf] at h
    simp at h
  | some nd =>
    cases hg : getTicker s t with
    | nil =>
      rw [ticker_step_of_empty f s t nd hf hg, getTicker_setTicker_self]
      simpa using List.length_pos.mpr (hf0 nd hf)
    | cons a as =>
      have hne : getTicker s t ≠ [] := by rw [hg]; simp
      rcases hc : check_for_alerts (getTicker s t) nd with ⟨sa, o⟩
      cases o with
      | some d =>
        rw [ticker_step_of_new_dividend f s t nd sa d hf hne hc,
          getTicker_setTicker_self]
        simp [hg]
      | none =>
        rw [ticker_step_of_no_new_dividend f s t nd sa hf hne hc] at h
        simp at h

theorem run_main_get_mono (f : String → Option (List Event)) :
    ∀ (ts : List String) (s : StoredData) (t0 : String),
      (getTicker s t0).length ≤ (getTicker (run_main f ts s).1 t0).length := by
  intro ts
  induction ts with
  | nil =>
    intro s t0
    simp [run_main]
  | cons t ts ih =>
    intro s t0
    calc (getTicker s t0).length
        ≤ (getTicker (ticker_step f s t).1 t0).length :=
          ticker_step_get_mono f s t t0
      _ ≤ (getTicker (run_main f (t :: ts) s).1 t0).length :=
          ih (ticker_step f s t).1 t0

theorem run_main_fst_of_not_updated (f : String → Option (List Event)) :
    ∀ (ts : List String) (s : StoredData), (run_main f ts s).2 = false →
      (run_main f ts s).1 = s := by
  intro ts
  induction ts with
  | nil =>
    intro s _
    rfl
  | cons t ts ih =>
    intro s h
    have h2 : (ticker_step f s t).2.1 = false ∧
        (run_main f ts (ticker_step f s t).1).2 = false := by
      simpa [run_main] using h
    calc (run_main f (t :: ts) s).1
        = (run_main f ts (ticker_step f s t).1).1 := rfl
      _ = (ticker_step f s t).1 := ih _ h2.2
      _ = s := ticker_step_fst_of_not_updated f s t h2.1

theorem run_main_growth_of_updated (f : String → Option (List Event))
    (hf0 : ∀ t l, f t = some l → l ≠ []) :
    ∀ (ts : List String) (s : StoredData), (run_main f ts s).2 = true →
      ∃ t0, (getTicker s t0).length <
        (getTicker (run_main f ts s).1 t0).length := by
  intro ts
  induction ts with
  | nil =>
    intro s h
    simp [run_main] at h
  | cons t ts ih =>
    intro s h
    have h2 : (ticker_step f s t).2.1 = true ∨
        (run_main f ts (ticker_step f s t).1).2 = true := by
      simpa [run_main] using h
    have hfst : (run_main f (t :: ts) s).1
        = (run_main f ts (ticker_step f s t).1).1 := rfl
    rcases h2 with h1 | h1
    · refine ⟨t, ?_⟩
      rw [hfst]
      exact lt_of_lt_of_le
        (ticker_step_growth_of_updated f s t (fun l => hf0 t l) h1)
        (run_main_get_mono f ts (ticker_step f s t).1 t)
    · obtain ⟨t0, ht0⟩ := ih (ticker_step f s t).1 h1
      refine ⟨t0, ?_⟩
      rw [hfst]
      exact lt_of_le_of_lt (ticker_step_get_mono f s t t0) ht0

theorem getLast?_toList_length {α : Type} (l : List α) :
    (l.getLast?).toList.length = min 1 l.length := by
  cases l with
  | nil => simp
  | cons a as =>
    obtain ⟨x, hx⟩ := getLast?_of_ne_nil (a :: as) (by simp)
    rw [hx]
    simp

/-! ## The claims -/

/-- C4: reconciling an entity with empty stored history stores all of
`fetched` as its history and issues no alert — the alert flag of the
iteration is `false` and no alert decision is computed, regardless of the
fetched content. -/
theorem empty_history_baseline_ingestion (f : String → Option (List Event))
    (s : StoredData) (tk : String) (fetched : List Event)
    (hf : f tk = some fetched) (hempty : getTicker s tk = []) :
    ticker_step f s tk = (setTicker s tk fetched, true, false) ∧
    getTicker (ticker_step f s tk).1 tk = fetched := by
  have h := ticker_step_of_empty f s tk fetched hf hempty
  exact ⟨h, by rw [h, getTicker_setTicker_self]⟩

/-- Witness for C4 at a concrete input: a never-seen ticker with one
fetched dividend gets its whole fetched list stored and no alert. -/
theorem empty_history_baseline_ingestion_witness :
    ticker_step (fun _ => some [(⟨20230101, 1⟩ : Event)]) [] ("AAPL")
      = (setTicker [] ("AAPL") [(⟨20230101, 1⟩ : Event)], true, false) ∧
    getTicker (ticker_step (fun _ => some [(⟨20230101, 1⟩ : Event)]) []
      ("AAPL")).1 ("AAPL") = [(⟨20230101, 1⟩ : Event)] :=
  empty_history_baseline_ingestion _ [] ("AAPL") [(⟨20230101, 1⟩ : Event)]
    rfl rfl

/-- C6: the claim's own boundary instance fails on the code. Under the
claim's (and the spec's) exact greater-or-equal semantics, baseline 1.00
with new amount 1.20 gives ratio exactly 0.20 and must alert — as the
exact-arithmetic reading of lines 121-126 (`decide_alert` over `ℚ`)
indeed does (first conjunct). But the program computes `change_pct` in
IEEE binary64: the computed ratio `(double_1_20 - 1) / 1` (exact in
binary64 for these operands, see `double_1_20`) is
`0.19999999999999996...`, strictly BELOW the binary64 threshold
`double_0_20`, so `abs(change_pct) >= ALERT_THRESHOLD` on line 126 is
`False` and the program does not alert at the mandated boundary (second
conjunct). -/
theorem threshold_boundary_float_divergence :
    (decide_alert (⟨20230401, 12/10⟩ : Event) (⟨20230101, 1⟩ : Event)).1
      = true ∧
    |(double_1_20 - 1) / 1| < double_0_20 := by
  constructor
  · norm_num [decide_alert, ALERT_THRESHOLD, le_abs]
  · rw [abs_lt]
    constructor <;> norm_num [double_1_20, double_0_20]

/-- C7: when the selected baseline (the last stored dividend) has amount
zero, the decision is non-alerting, no division is performed, and the
latest new dividend is still appended to the stored history. -/
theorem zero_baseline_safety (s : StoredData) (tk : String)
    (fetched : List Event) (prev d : Event)
    (hprev : (getTicker s tk).getLast? = some prev) (h0 : prev.amount = 0)
    (hd : (truly_new (getTicker s tk) fetched).getLast? = some d) :
    check_for_alerts (getTicker s tk) fetched = (false, some d) ∧
    getTicker (ticker_step (fun _ => some fetched) s tk).1 tk
      = getTicker s tk ++ [d] := by
  have hne : getTicker s tk ≠ [] := by
    intro h
    rw [h] at hprev
    simp at hprev
  have hc : check_for_alerts (getTicker s tk) fetched = (false, some d) := by
    rw [check_for_alerts_of_getLast?_eq_some _ _ prev d hprev hd]
    simp [decide_alert, h0]
  refine ⟨hc, ?_⟩
  rw [ticker_step_of_new_dividend _ _ _ fetched false d rfl hne hc,
    getTicker_setTicker_self]

/-- Witness for C7: stored baseline 0.00, new dividend 5.00: no alert,
and the new dividend is recorded. -/
theorem zero_baseline_safety_witness :
    check_for_alerts (getTicker [(("AAPL"), [(⟨20230101, 0⟩ : Event)])]
        ("AAPL")) [⟨20230401, 5⟩] = (false, some ⟨20230401, 5⟩) ∧
    getTicker (ticker_step (fun _ => some [(⟨20230401, 5⟩ : Event)])
        [(("AAPL"), [(⟨20230101, 0⟩ : Event)])] ("AAPL")).1 ("AAPL")
      = getTicker [(("AAPL"), [(⟨20230101, 0⟩ : Event)])] ("AAPL")
        ++ [⟨20230401, 5⟩] :=
  zero_baseline_safety [(("AAPL"), [(⟨20230101, 0⟩ : Event)])] ("AAPL")
    [⟨20230401, 5⟩] ⟨20230101, 0⟩ ⟨20230401, 5⟩ rfl rfl rfl

/-- C10: `fetch_dividends` returns `None` both when the call raises and
when the source reports an empty dividend list (otherwise it returns the
rows); a ticker whose fetch returned `None` is skipped with no history
mutation, so such an entity is never baselined or stored. -/
theorem fetch_none_skip :
    (∀ msg : String, fetch_dividends (Except.error msg) = none) ∧
    fetch_dividends (Except.ok []) = none ∧
    (∀ rows : List Event, rows ≠ [] →
      fetch_dividends (Except.ok rows) = some rows) ∧
    (∀ (f : String → Option (List Event)) (s : StoredData) (t : String),
      f t = none → ticker_step f s t = (s, false, false)) := by
  refine ⟨fun _ => rfl, rfl, fun rows hr => ?_,
    fun f s t hf => ticker_step_of_fetch_none f s t hf⟩
  simp [fetch_dividends, hr]

/-- Witness for C10 at concrete inputs: an erroring fetch, a non-empty
fetch, and a skipped ticker whose stored history is left untouched. -/
theorem fetch_none_skip_witness :
    fetch_dividends (Except.error ("HTTP 500")) = none ∧
    fetch_dividends (Except.ok [(⟨20230101, 1⟩ : Event)])
      = some [(⟨20230101, 1⟩ : Event)] ∧
    ticker_step (fun _ => none) [(("AAPL"), [(⟨20230101, 1⟩ : Event)])]
      ("AAPL") = ([(("AAPL"), [(⟨20230101, 1⟩ : Event)])], false, false) :=
  ⟨fetch_none_skip.1 ("HTTP 500"),
   fetch_none_skip.2.2.1 [(⟨20230101, 1⟩ : Event)] (by simp),
   fetch_none_skip.2.2.2 _ _ ("AAPL") rfl⟩

/-- C1, counterexample: with stored history of one event and two truly-new
fetched events, the code identifies both as new but appends only the last
one, so the history grows to length 2, not 1 + 2 = 3 as the claim
requires. -/
theorem append_only_growth_counterexample :
    (truly_new [(⟨20230101, 1⟩ : Event)]
        [⟨20230101, 1⟩, ⟨20230401, 13/10⟩, ⟨20230701, 1⟩]).length = 2 ∧
    (getTicker (ticker_step
        (fun _ => some [(⟨20230101, 1⟩ : Event), ⟨20230401, 13/10⟩,
          ⟨20230701, 1⟩])
        [(("AAPL"), [(⟨20230101, 1⟩ : Event)])] ("AAPL")).1 ("AAPL")).length
      = 2 ∧
    (2 : Nat) ≠ 1 + 2 := by
  refine ⟨by norm_num [truly_new], ?_, by norm_num⟩
  norm_num [ticker_step, getTicker, setTicker, check_for_alerts, truly_new,
    decide_alert, ALERT_THRESHOLD]

/-- C1, amended: for a non-empty stored history, reconciliation identifies
as new exactly the fetched events whose date appears in no stored event
(`truly_new`), but returns and appends only the LAST of them (none when
there are none); so the appended history is the old one followed by at
most one event — its length is the old length plus `min 1 (number of new
events)` — and no existing record is altered (the old history is a prefix
of the new one). -/
theorem append_only_growth_amended (s : StoredData) (tk : String)
    (fetched : List Event) (hs : getTicker s tk ≠ []) :
    getTicker (ticker_step (fun _ => some fetched) s tk).1 tk
      = getTicker s tk
        ++ ((truly_new (getTicker s tk) fetched).getLast?).toList ∧
    (getTicker (ticker_step (fun _ => some fetched) s tk).1 tk).length
      = (getTicker s tk).length
        + min 1 (truly_new (getTicker s tk) fetched).length := by
  have h := ticker_step_get_of_ne_nil s tk fetched hs
  refine ⟨h, ?_⟩
  rw [h, List.length_append, getLast?_toList_length]

/-- Witness for the amended C1 at the counterexample's input. -/
theorem append_only_growth_amended_witness :
    getTicker [(("AAPL"), [(⟨20230101, 1⟩ : Event)])] ("AAPL") ≠ [] ∧
    (getTicker (ticker_step
        (fun _ => some [(⟨20230101, 1⟩ : Event), ⟨20230401, 13/10⟩,
          ⟨20230701, 1⟩])
        [(("AAPL"), [(⟨20230101, 1⟩ : Event)])] ("AAPL")).1 ("AAPL")
      = getTicker [(("AAPL"), [(⟨20230101, 1⟩ : Event)])] ("AAPL")
        ++ ((truly_new
            (getTicker [(("AAPL"), [(⟨20230101, 1⟩ : Event)])] ("AAPL"))
            [⟨20230101, 1⟩, ⟨20230401, 13/10⟩, ⟨20230701, 1⟩]).getLast?).toList ∧
    (getTicker (ticker_step
        (fun _ => some [(⟨20230101, 1⟩ : Event), ⟨20230401, 13/10⟩,
          ⟨20230701, 1⟩])
        [(("AAPL"), [(⟨20230101, 1⟩ : Event)])] ("AAPL")).1 ("AAPL")).length
      = (getTicker [(("AAPL"), [(⟨20230101, 1⟩ : Event)])] ("AAPL")).length
        + min 1 (truly_new
            (getTicker [(("AAPL"), [(⟨20230101, 1⟩ : Event)])] ("AAPL"))
            [⟨20230101, 1⟩, ⟨20230401, 13/10⟩, ⟨20230701, 1⟩]).length) :=
  ⟨by simp [getTicker],
   append_only_growth_amended [(("AAPL"), [(⟨20230101, 1⟩ : Event)])]
     ("AAPL") [⟨20230101, 1⟩, ⟨20230401, 13/10⟩, ⟨20230701, 1⟩]
     (by simp [getTicker])⟩

/-- C2, counterexample: on the spec's multi-new-event example (stored
`[(2023-01-01, 1.00)]`, fetched `[(2023-01-01, 1.00), (2023-04-01, 1.30),
(2023-07-01, 1.00)]`) the claim demands two alerting decisions, but the
code produces a single non-alerting decision. -/
theorem multi_new_chaining_counterexample :
    (check_for_alerts [(⟨20230101, 1⟩ : Event)]
        [⟨20230101, 1⟩, ⟨20230401, 13/10⟩, ⟨20230701, 1⟩]).1 = false := by
  norm_num [check_for_alerts, truly_new, decide_alert, ALERT_THRESHOLD]

/-- C2, amended: on that input the code identifies both
`(2023-04-01, 1.30)` and `(2023-07-01, 1.00)` as new, but compares only
the latest new event `(2023-07-01, 1.00)` against the last STORED event
`(2023-01-01, 1.00)` — ratio 0.00, no alert — and returns only
`(2023-07-01, 1.00)` for appending; no progressive baseline chaining
happens. -/
theorem multi_new_chaining_amended :
    truly_new [(⟨20230101, 1⟩ : Event)]
        [⟨20230101, 1⟩, ⟨20230401, 13/10⟩, ⟨20230701, 1⟩]
      = [⟨20230401, 13/10⟩, ⟨20230701, 1⟩] ∧
    check_for_alerts [(⟨20230101, 1⟩ : Event)]
        [⟨20230101, 1⟩, ⟨20230401, 13/10⟩, ⟨20230701, 1⟩]
      = (false, some ⟨20230701, 1⟩) := by
  constructor
  · norm_num [truly_new]
  · norm_num [check_for_alerts, truly_new, decide_alert, ALERT_THRESHOLD]

/-- C5, counterexample: histories are NOT kept sorted by the merge. With
stored `[(2023-07-01, 1.00)]` and ascending fetched
`[(2023-04-01, 1.30), (2023-07-01, 1.00)]`, the truly-new event
`(2023-04-01, 1.30)` is appended after `(2023-07-01, 1.00)`, breaking the
ascending-date invariant. -/
theorem history_invariant_counterexample :
    getTicker (ticker_step
        (fun _ => some [(⟨20230401, 13/10⟩ : Event), ⟨20230701, 1⟩])
        [(("AAPL"), [(⟨20230701, 1⟩ : Event)])] ("AAPL")).1 ("AAPL")
      = [⟨20230701, 1⟩, ⟨20230401, 13/10⟩] ∧
    ¬ ([(⟨20230701, 1⟩ : Event), ⟨20230401, 13/10⟩].Pairwise
        (fun a b => a.date < b.date)) := by
  constructor
  · norm_num [ticker_step, getTicker, setTicker, check_for_alerts,
      truly_new, decide_alert, ALERT_THRESHOLD]
  · simp

/-- C5, amended: for every starting history satisfying the invariant, the
merge ALWAYS preserves the no-duplicate-date part (the appended event is
truly new, so its date occurs in no stored event) — including in the
backfill case — but it preserves ascending sortedness only under the
extra assumption that the appended truly-new event's date is greater
than every stored date; the counterexample shows sortedness is otherwise
lost. -/
theorem history_invariant_amended (s : StoredData) (tk : String)
    (fetched : List Event) (hs : getTicker s tk ≠ [])
    (hnodup : ((getTicker s tk).map Event.date).Nodup)
    (hsorted : (getTicker s tk).Pairwise (fun a b => a.date < b.date)) :
    ((getTicker (ticker_step (fun _ => some fetched) s tk).1 tk).map
        Event.date).Nodup ∧
    ((∀ e ∈ getTicker s tk,
        ∀ d ∈ ((truly_new (getTicker s tk) fetched).getLast?).toList,
          e.date < d.date) →
      (getTicker (ticker_step (fun _ => some fetched) s tk).1 tk).Pairwise
        (fun a b => a.date < b.date)) := by
  rw [ticker_step_get_of_ne_nil s tk fetched hs]
  cases hd : (truly_new (getTicker s tk) fetched).getLast? with
  | none =>
    constructor
    · simpa using hnodup
    · intro _
      simpa using hsorted
  | some d =>
    have hdmem : d ∈ truly_new (getTicker s tk) fetched :=
      List.mem_of_getLast?_eq_some hd
    have hdnot : d.date ∉ (getTicker s tk).map Event.date :=
      ((mem_truly_new _ _ d).mp hdmem).2
    constructor
    · rw [Option.toList_some, List.map_append, List.nodup_append]
      refine ⟨hnodup, by simp, ?_⟩
      intro x hx hmem
      simp at hmem
      subst hmem
      exact hdnot hx
    · intro hgt
      rw [Option.toList_some, List.pairwise_append]
      refine ⟨hsorted, by simp, ?_⟩
      intro a ha x hx
      simp at hx
      rw [hx]
      exact hgt a ha d (by simp)

/-- Witness for the amended C5: the no-duplicate-date part holds outright,
and the appended event's date exceeds the stored one, so sortedness also
survives the merge here. -/
theorem history_invariant_amended_witness :
    (getTicker [(("AAPL"), [(⟨20230101, 1⟩ : Event)])] ("AAPL") ≠ []) ∧
    (((getTicker (ticker_step
        (fun _ => some [(⟨20230101, 1⟩ : Event), ⟨20230401, 13/10⟩])
        [(("AAPL"), [(⟨20230101, 1⟩ : Event)])] ("AAPL")).1 ("AAPL")).map
          Event.date).Nodup ∧
      (getTicker (ticker_step
        (fun _ => some [(⟨20230101, 1⟩ : Event), ⟨20230401, 13/10⟩])
        [(("AAPL"), [(⟨20230101, 1⟩ : Event)])] ("AAPL")).1 ("AAPL")).Pairwise
        (fun a b => a.date < b.date)) :=
  ⟨by simp [getTicker],
   (history_invariant_amended [(("AAPL"), [(⟨20230101, 1⟩ : Event)])]
     ("AAPL") [⟨20230101, 1⟩, ⟨20230401, 13/10⟩]
     (by simp [getTicker]) (by simp [getTicker]) (by simp [getTicker])).1,
   (history_invariant_amended [(("AAPL"), [(⟨20230101, 1⟩ : Event)])]
     ("AAPL") [⟨20230101, 1⟩, ⟨20230401, 13/10⟩]
     (by simp [getTicker]) (by simp [getTicker]) (by simp [getTicker])).2
     (by
       intro e he d hdm
       simp [getTicker] at he
       simp [truly_new, getTicker] at hdm
       subst he
       subst hdm
       norm_num)⟩

/-- C3, counterexample: reconciliation is NOT idempotent. On the spec's
multi-new-event data, the first run appends only `(2023-07-01, 1.00)`,
after which the second run against the same fetched data still finds
`(2023-04-01, 1.30)` new and sets `data_updated` again — re-running
against unchanged source data has side effects. -/
theorem reconcile_idempotence_counterexample :
    (ticker_step
        (fun _ => some [(⟨20230101, 1⟩ : Event), ⟨20230401, 13/10⟩,
          ⟨20230701, 1⟩])
        (ticker_step
          (fun _ => some [(⟨20230101, 1⟩ : Event), ⟨20230401, 13/10⟩,
            ⟨20230701, 1⟩])
          [(("AAPL"), [(⟨20230101, 1⟩ : Event)])] ("AAPL")).1
        ("AAPL")).2.1 = true := by
  norm_num [ticker_step, getTicker, setTicker, check_for_alerts, truly_new,
    decide_alert, ALERT_THRESHOLD]

/-- C3, amended: the second run is a no-op — unchanged store, no update,
no alert — provided the first run had at most one truly-new fetched event
(always the case after enough re-runs), or the stored history was empty
(then the first run ingests all of `fetched`). With two or more truly-new
events and a non-empty history the second run still makes progress, as
the counterexample shows. -/
theorem reconcile_idempotence_amended (s : StoredData) (tk : String)
    (fetched : List Event) (hfe : fetched ≠ [])
    (h : getTicker s tk = [] ∨
      (truly_new (getTicker s tk) fetched).length ≤ 1) :
    ticker_step (fun _ => some fetched)
        (ticker_step (fun _ => some fetched) s tk).1 tk
      = ((ticker_step (fun _ => some fetched) s tk).1, false, false) := by
  by_cases hstored : getTicker s tk = []
  · have h1 := ticker_step_of_empty (fun _ => some fetched) s tk fetched
      rfl hstored
    simp only [h1]
    have hget : getTicker (setTicker s tk fetched) tk = fetched :=
      getTicker_setTicker_self s tk fetched
    have hne : getTicker (setTicker s tk fetched) tk ≠ [] := by
      rw [hget]
      exact hfe
    have htn : truly_new (getTicker (setTicker s tk fetched) tk) fetched
        = [] := by
      rw [hget]
      exact truly_new_eq_nil _ _
        (fun d hd => List.mem_map_of_mem Event.date hd)
    exact ticker_step_of_no_new_dividend _ _ tk fetched false rfl hne
      (check_for_alerts_of_getLast?_eq_none _ _ (by simp [htn]))
  · have hcount : (truly_new (getTicker s tk) fetched).length ≤ 1 :=
      h.resolve_left hstored
    cases htn : truly_new (getTicker s tk) fetched with
    | nil =>
      have hc1 : check_for_alerts (getTicker s tk) fetched = (false, none) :=
        check_for_alerts_of_getLast?_eq_none _ _ (by simp [htn])
      have h1 := ticker_step_of_no_new_dividend (fun _ => some fetched) s tk
        fetched false rfl hstored hc1
      simp only [h1]
    | cons d rest =>
      have hrest : rest = [] := by
        rw [htn] at hcount
        simpa using hcount
      subst hrest
      have hd1 : (truly_new (getTicker s tk) fetched).getLast? = some d := by
        simp [htn]
      obtain ⟨prev, hprev⟩ := getLast?_of_ne_nil _ hstored
      have hc1 := check_for_alerts_of_getLast?_eq_some _ _ prev d hprev hd1
      rcases hcp : check_for_alerts (getTicker s tk) fetched with ⟨sa, o⟩
      have ho : o = some d := by
        have h2 := decide_alert_snd d prev
        rw [← hc1, hcp] at h2
        exact h2
      subst ho
      have h1 := ticker_step_of_new_dividend (fun _ => some fetched) s tk
        fetched sa d rfl hstored hcp
      simp only [h1]
      have hget : getTicker (setTicker s tk (getTicker s tk ++ [d])) tk
          = getTicker s tk ++ [d] := getTicker_setTicker_self _ _ _
      have hne2 : getTicker (setTicker s tk (getTicker s tk ++ [d])) tk
          ≠ [] := by
        rw [hget]
        simp
      have htn2 : truly_new (getTicker s tk ++ [d]) fetched = [] := by
        apply truly_new_eq_nil
        intro e he
        by_cases hmem : e.date ∈ (getTicker s tk).map Event.date
        · rw [List.map_append]
          exact List.mem_append_left _ hmem
        · have hmem2 : e ∈ truly_new (getTicker s tk) fetched :=
            (mem_truly_new _ _ e).mpr ⟨he, hmem⟩
          rw [htn] at hmem2
          simp at hmem2
          subst hmem2
          rw [List.map_append]
          apply List.mem_append_right
          simp
      have hc2 : check_for_alerts
          (getTicker (setTicker s tk (getTicker s tk ++ [d])) tk) fetched
          = (false, none) := by
        apply check_for_alerts_of_getLast?_eq_none
        rw [hget, htn2]
        rfl
      exact ticker_step_of_no_new_dividend _ _ tk fetched false rfl hne2 hc2

/-- Witness for the amended C3: exactly one truly-new event; the first
run absorbs it and the second run is a no-op. -/
theorem reconcile_idempotence_amended_witness :
    ([(⟨20230101, 1⟩ : Event), ⟨20230401, 13/10⟩] ≠ ([] : List Event)) ∧
    (truly_new (getTicker [(("AAPL"), [(⟨20230101, 1⟩ : Event)])] ("AAPL"))
        [⟨20230101, 1⟩, ⟨20230401, 13/10⟩]).length ≤ 1 ∧
    ticker_step (fun _ => some [(⟨20230101, 1⟩ : Event), ⟨20230401, 13/10⟩])
        (ticker_step
          (fun _ => some [(⟨20230101, 1⟩ : Event), ⟨20230401, 13/10⟩])
          [(("AAPL"), [(⟨20230101, 1⟩ : Event)])] ("AAPL")).1 ("AAPL")
      = ((ticker_step
          (fun _ => some [(⟨20230101, 1⟩ : Event), ⟨20230401, 13/10⟩])
          [(("AAPL"), [(⟨20230101, 1⟩ : Event)])] ("AAPL")).1, false,
          false) :=
  ⟨by simp, by norm_num [truly_new, getTicker],
   reconcile_idempotence_amended [(("AAPL"), [(⟨20230101, 1⟩ : Event)])]
     ("AAPL") [⟨20230101, 1⟩, ⟨20230401, 13/10⟩] (by simp)
     (Or.inr (by norm_num [truly_new, getTicker]))⟩

/-- C8: `save_stored_data` is NOT atomic with respect to process crash.
It opens the data file with mode `w`, which truncates it in place, and
then streams the JSON into the same file; a crash between the truncating
open and the completed dump leaves the empty (partial) file — a state
that is neither the full prior state nor the full new state. -/
theorem save_not_atomic_evaluation :
    ("" ∈ save_observable_contents ("prior-snapshot") ("new-snapshot")) ∧
    ("" ≠ ("prior-snapshot")) ∧ ("" ≠ ("new-snapshot")) :=
  ⟨by simp [save_observable_contents], by simp, by simp⟩

/-- C9: in every run the persisted state is written at most once, at run
end, and it is written iff at least one entity's stored history strictly
grew during the run. (The hypothesis that the fetch capability never
returns an empty list is guaranteed by `fetch_dividends`, which maps an
empty source list to `None`.) -/
theorem save_once_iff_growth (f : String → Option (List Event))
    (tickers : List String) (s : StoredData)
    (hf0 : ∀ t l, f t = some l → l ≠ []) :
    (main_saves f tickers s).length ≤ 1 ∧
    (main_saves f tickers s ≠ [] ↔
      ∃ t0, (getTicker s t0).length <
        (getTicker (run_main f tickers s).1 t0).length) := by
  constructor
  · rw [main_saves]
    split <;> simp
  · rw [main_saves]
    cases hu : (run_main f tickers s).2 with
    | true =>
      rw [if_pos rfl]
      constructor
      · intro _
        exact run_main_growth_of_updated f hf0 tickers s hu
      · intro _
        simp
    | false =>
      rw [if_neg (by simp)]
      constructor
      · intro hcontra
        exact absurd rfl hcontra
      · rintro ⟨t0, ht0⟩
        rw [run_main_fst_of_not_updated f tickers s hu] at ht0
        exact absurd ht0 (lt_irrefl _)

/-- Witness for C9: a one-ticker run over an empty store grows the
history, and the save happens (exactly once). -/
theorem save_once_iff_growth_witness :
    (main_saves (fun _ => some [(⟨20230101, 1⟩ : Event)])
      [("AAPL")] []).length ≤ 1 ∧
    (main_saves (fun _ => some [(⟨20230101, 1⟩ : Event)]) [("AAPL")] []
        ≠ [] ↔
      ∃ t0, (getTicker [] t0).length <
        (getTicker (run_main (fun _ => some [(⟨20230101, 1⟩ : Event)])
          [("AAPL")] []).1 t0).length) :=
  save_once_iff_growth _ [("AAPL")] []
    (fun t l h => by cases h; simp)

end DividendMonitor
